import Mathlib

/-!
Verification of the FinSight AI transaction ledger and budget-evaluation engine.

This file shallowly embeds the core of the repository:
  * `database.py` — `DatabaseManager.insert_transaction`, `get_transactions`,
    `get_budget_summary`, `upsert_budget`;
  * `main.py` — the manual-entry validation and budget-alert path of
    `show_manual_entry` (lines 185–215) and the budget classification of
    `show_budget_manager` (lines 347–360; `trial.py` lines 407–420 are the
    same logic).

Modelling choices:
  * Monetary amounts (`DECIMAL(10,2)` columns, Python floats in the UI layer)
    are modelled as `ℚ`.
  * A database connection is modelled by a `Bool` flag `conn_ok`:
    `get_connection` returning `None` (or an exception being raised, which the
    `with conn` context manager rolls back) corresponds to `conn_ok = false`.
  * `CURRENT_DATE` is passed explicitly as a `today : Date` parameter.
  * Dates are plain `(year, month, day)` triples; SQL `EXTRACT(MONTH/YEAR …)`
    reads the corresponding field.
-/

namespace FinSight

/-- Calendar date as stored in the `transaction_date DATE` column. -/
structure Date where
  year : ℕ
  month : ℕ
  day : ℕ
deriving DecidableEq

/-- Row of the `transactions` table (the columns the core reads or writes;
`user_id`, `is_recurring`, `raw_data`, `created_at` are never read by the
embedded operations and are omitted). -/
structure Transaction where
  id : ℕ
  vendor : String
  amount : ℚ
  category : String
  transaction_date : Date
  description : String
  source_type : String
deriving DecidableEq

/-- State of the `transactions` table together with the `SERIAL` id counter. -/
structure LedgerState where
  transactions : List Transaction
  nextId : ℕ
deriving DecidableEq

/-- Row of the `budgets` table (`user_id` is always the default 1 and
`created_at` is never read, so both are omitted; `UNIQUE(user_id, category)`
makes `category` a key). -/
structure Budget where
  category : String
  monthly_limit : ℚ
deriving DecidableEq

/-- Row returned by `DatabaseManager.get_budget_summary` (database.py:192–203). -/
structure SummaryRow where
  category : String
  monthly_limit : ℚ
  spent : ℚ
deriving DecidableEq

/-- The category list of `main.py` line 34 (`CATEGORIES`). -/
def CATEGORIES : List String :=
  ["Inventory Purchase", "Staff Welfare", "Marketing & Promotion", "Utilities",
   "Owner\x27s Draw", "Executive Lunch", "Logistics", "IT & Software",
   "Business Travel", "Loan Repayment", "Store Supplies", "Shipping & Delivery",
   "Office Supplies", "Staff Uniforms", "Transportation", "Promotional Items",
   "Miscellaneous", "Store Maintenance", "Shopping", "Staff Training",
   "Taxes & Licenses", "Marketing"]

/-- `DatabaseManager.insert_transaction` (database.py:128–155): no validation of
any argument; with a working connection the row is inserted and the generated
id returned; when the connection is unavailable (or the statement raises, in
which case the `with conn` context manager rolls the row back) it returns
`None` and the table is unchanged. -/
def insert_transaction (conn_ok : Bool) (db : LedgerState) (vendor : String)
    (amount : ℚ) (category : String) (transaction_date : Date)
    (description : String) (source_type : String) : Option ℕ × LedgerState :=
  if conn_ok then
    (some db.nextId,
      { transactions := db.transactions ++
          [{ id := db.nextId, vendor := vendor, amount := amount,
             category := category, transaction_date := transaction_date,
             description := description, source_type := source_type }],
        nextId := db.nextId + 1 })
  else (none, db)

/-- Date order used for `ORDER BY transaction_date DESC`: `a ≤ b`
lexicographically on (year, month, day). -/
def dateLeB (a b : Date) : Bool :=
  a.year < b.year ||
    (a.year == b.year &&
      (a.month < b.month || (a.month == b.month && a.day ≤ b.day)))

/-- Insert a transaction into a list kept in descending `transaction_date`
order (rows whose date is ≥ the head's date go first). -/
def insertByDateDesc (t : Transaction) : List Transaction → List Transaction
  | [] => [t]
  | u :: us =>
    if dateLeB u.transaction_date t.transaction_date then t :: u :: us
    else u :: insertByDateDesc t us

/-- Sort transactions by `transaction_date` descending, modelling
`ORDER BY transaction_date DESC`. -/
def sortByDateDesc : List Transaction → List Transaction
  | [] => []
  | t :: ts => insertByDateDesc t (sortByDateDesc ts)

/-- `DatabaseManager.get_transactions` (database.py:157–181): all rows ordered
by date descending, truncated when a `limit` is given. Python's `if limit:`
treats `limit = 0` as falsy, so a zero limit yields the full, unbounded query.
On connection failure or query error it returns the empty list. -/
def get_transactions (conn_ok : Bool) (store : List Transaction)
    (limit : Option ℕ) : List Transaction :=
  if conn_ok then
    match limit with
    | some n => if n = 0 then sortByDateDesc store else (sortByDateDesc store).take n
    | none => sortByDateDesc store
  else []

/-- Month/year filter of the summary query (database.py:199–200):
`EXTRACT(MONTH FROM t.transaction_date) = EXTRACT(MONTH FROM CURRENT_DATE)`
and likewise for the year. -/
def inCurrentMonth (today : Date) (d : Date) : Bool :=
  d.month == today.month && d.year == today.year

/-- Byte-wise (code-point) order on the character lists of two strings, used
to model `ORDER BY b.category`. -/
def strLeChars : List Char → List Char → Bool
  | [], _ => true
  | _ :: _, [] => false
  | c :: cs, d :: ds =>
    if c.val < d.val then true
    else if d.val < c.val then false
    else strLeChars cs ds

/-- String order for `ORDER BY b.category` (collation modelled as code-point
order; no claim depends on the ordering of distinct categories). -/
def strLeB (a b : String) : Bool :=
  strLeChars a.data b.data

/-- Insert a budget row into a list kept in ascending `category` order. -/
def insertByCategory (b : Budget) : List Budget → List Budget
  | [] => [b]
  | c :: cs =>
    if strLeB b.category c.category then b :: c :: cs
    else c :: insertByCategory b cs

/-- Sort budget rows by `category`, modelling `ORDER BY b.category`. -/
def sortByCategory : List Budget → List Budget
  | [] => []
  | b :: bs => insertByCategory b (sortByCategory bs)

/-- `COALESCE(SUM(t.amount), 0)` for one category (database.py:196–200): the
sum of the amounts of the transactions whose `category` equals `c` and whose
`transaction_date` is in the current month and year; 0 when none match. -/
def spentFor (today : Date) (store : List Transaction) (c : String) : ℚ :=
  ((store.filter fun t =>
      t.category == c && inCurrentMonth today t.transaction_date).map
    Transaction.amount).sum

/-- `DatabaseManager.get_budget_summary` (database.py:183–214): one row per
budget row (the `LEFT JOIN … GROUP BY b.category, b.monthly_limit` collapses
to a per-budget-row aggregate because `UNIQUE(user_id, category)` with the
constant default `user_id = 1` guarantees at most one budget row per
category), ordered by category. On connection failure or query error it
returns the empty list. -/
def get_budget_summary (conn_ok : Bool) (today : Date) (budgets : List Budget)
    (store : List Transaction) : List SummaryRow :=
  if conn_ok then
    (sortByCategory budgets).map fun b =>
      { category := b.category, monthly_limit := b.monthly_limit,
        spent := spentFor today store b.category }
  else []

/-- `DatabaseManager.upsert_budget` (database.py:216–241):
`INSERT … ON CONFLICT (user_id, category) DO UPDATE SET monthly_limit =
EXCLUDED.monthly_limit`. No validation of `monthly_limit`. Returns `True` on
success; on connection failure (or a raised statement, rolled back by the
`with conn` context manager) returns `False` with the table unchanged. -/
def upsert_budget (conn_ok : Bool) (budgets : List Budget) (category : String)
    (monthly_limit : ℚ) : Bool × List Budget :=
  if conn_ok then
    if budgets.any (fun b => b.category == category) then
      (true, budgets.map fun b =>
        if b.category == category then { b with monthly_limit := monthly_limit }
        else b)
    else
      (true, budgets ++ [{ category := category, monthly_limit := monthly_limit }])
  else (false, budgets)

/-- Budget classification outcome of `show_budget_manager`
(main.py:354–360: over budget / warning / on track). -/
inductive Status where
  | on_track
  | warning
  | over_budget
deriving DecidableEq

/-- `percentage = (spent / limit * 100) if limit > 0 else 0`
(main.py:352, trial.py:412). -/
def percentage (spent limit : ℚ) : ℚ :=
  if 0 < limit then spent / limit * 100 else 0

/-- Classification of a percentage (main.py:355–360, trial.py:413–418):
`if percentage > 100: over … elif percentage > 80: warning … else: on track`. -/
def classify (p : ℚ) : Status :=
  if 100 < p then Status.over_budget
  else if 80 < p then Status.warning
  else Status.on_track

/-- Status `show_budget_manager` derives for one summary row. -/
def budget_status (spent limit : ℚ) : Status :=
  classify (percentage spent limit)

/-- Alert the manual-entry path shows after a saved transaction
(main.py:207–210): `st.warning` when over the limit, `st.info` with the
percentage when above 80 % of it. -/
inductive Alert where
  | exceeded
  | nearLimit (pct : ℚ)
deriving DecidableEq

/-- Budget-alert loop of `show_manual_entry` (main.py:201–211): find the first
summary row matching the inserted category, add the just-inserted `amount` to
its reported `spent`, and warn if the total exceeds the limit or passes 80 %
of it. -/
def budget_alert (budget_summary : List SummaryRow) (category : String)
    (amount : ℚ) : Option Alert :=
  match budget_summary.find? (fun b => b.category == category) with
  | some b =>
      if b.monthly_limit < b.spent + amount then some Alert.exceeded
      else if b.monthly_limit * (4 / 5) < b.spent + amount then
        some (Alert.nearLimit ((b.spent + amount) / b.monthly_limit * 100))
      else none
  | none => none

/-- Classification expressed by an alert of the manual-entry path: the
`st.warning "Budget exceeded"` branch corresponds to `over_budget`, the
`st.info` branch to `warning`, no message to `on_track`. -/
def alertStatus : Option Alert → Status
  | some Alert.exceeded => Status.over_budget
  | some (Alert.nearLimit _) => Status.warning
  | none => Status.on_track

/-- Outcome of one submit of the manual-entry form. -/
inductive EntryOutcome where
  | saved (id : ℕ) (alert : Option Alert)
  | saveFailed
  | inputError
deriving DecidableEq

/-- Submit path of `show_manual_entry` (main.py:185–215): validation is
`if vendor and amount > 0` (Python truthiness: `vendor` non-empty, without
trimming; no category check — the select box restricts the UI but `record`
itself never validates membership). On success it re-reads the budget summary
(after the committed insert) and runs the alert loop with the inserted
`amount` added on top. -/
def show_manual_entry_submit (conn_ok : Bool) (today : Date)
    (budgets : List Budget) (db : LedgerState) (vendor : String) (amount : ℚ)
    (category : String) (transaction_date : Date) (description : String) :
    EntryOutcome × LedgerState :=
  if vendor ≠ "" ∧ 0 < amount then
    match insert_transaction conn_ok db vendor amount category transaction_date
        description "manual_entry" with
    | (some tid, db1) =>
        (EntryOutcome.saved tid
          (budget_alert (get_budget_summary conn_ok today budgets db1.transactions)
            category amount),
         db1)
    | (none, db1) => (EntryOutcome.saveFailed, db1)
  else (EntryOutcome.inputError, db)

/-! Concrete fixtures used by witnesses and counterexamples. -/

/-- Sample evaluation date (`CURRENT_DATE`). -/
def today0 : Date := { year := 2024, month := 6, day := 15 }

/-- Empty ledger with the `SERIAL` counter at 1. -/
def db0 : LedgerState := { transactions := [], nextId := 1 }

/-- Sample budget row: Food, limit 100. -/
def foodBudget : Budget := { category := "Food", monthly_limit := 100 }

/-- Sample transaction in the current month. -/
def tx0 : Transaction :=
  { id := 1, vendor := "Starbucks", amount := 12, category := "Food",
    transaction_date := today0, description := "Coffee", source_type := "manual_entry" }

/-- Row `insert_transaction` records for an empty vendor and negative amount. -/
def badTx : Transaction :=
  { id := 1, vendor := "", amount := -5, category := "Office Supplies",
    transaction_date := today0, description := "", source_type := "manual_entry" }

/-- Row the manual-entry path records for a whitespace-only vendor and an
unrecognized category. -/
def wsTx : Transaction :=
  { id := 1, vendor := " ", amount := 10, category := "NotARealCategory",
    transaction_date := today0, description := "", source_type := "manual_entry" }

/-! Helper lemmas. -/

theorem mem_insertByCategory (c b : Budget) (l : List Budget) :
    c ∈ insertByCategory b l ↔ c = b ∨ c ∈ l := by
  induction l with
  | nil => simp [insertByCategory]
  | cons d ds ih =>
    simp only [insertByCategory]
    split
    · simp [List.mem_cons]
    · simp only [List.mem_cons, ih]
      tauto

theorem mem_sortByCategory (b : Budget) (l : List Budget) :
    b ∈ sortByCategory l ↔ b ∈ l := by
  induction l with
  | nil => simp [sortByCategory]
  | cons d ds ih =>
    simp only [sortByCategory, mem_insertByCategory, List.mem_cons, ih]

theorem spentFor_eq_sum_ite (today : Date) (store : List Transaction) (c : String) :
    spentFor today store c
      = (store.map fun t =>
          if t.category = c ∧ inCurrentMonth today t.transaction_date = true
          then t.amount else 0).sum := by
  induction store with
  | nil => simp [spentFor]
  | cons t ts ih =>
    simp only [spentFor, List.filter_cons] at ih ⊢
    by_cases h1 : t.category = c
    · by_cases h2 : inCurrentMonth today t.transaction_date = true
      · simp [h1, h2, ih]
      · simp [h1, h2, ih]
    · simp [h1, ih]

theorem countP_category_map_update (budgets : List Budget) (c : String) (l : ℚ)
    (cat : String) :
    ((budgets.map fun b =>
        if b.category == c then { b with monthly_limit := l } else b).countP
      fun b => b.category == cat)
      = budgets.countP fun b => b.category == cat := by
  induction budgets with
  | nil => rfl
  | cons b bs ih =>
    simp only [List.map_cons, List.countP_cons, ih]
    by_cases h : (b.category == c) = true
    · simp [h]
    · simp [h]

theorem upsert_budget_true_any (budgets : List Budget) (c : String) (l : ℚ)
    (hany : (budgets.any fun b => b.category == c) = true) :
    upsert_budget true budgets c l
      = (true, budgets.map fun b =>
          if b.category == c then { b with monthly_limit := l } else b) := by
  simp [upsert_budget, hany]

theorem upsert_budget_true_none (budgets : List Budget) (c : String) (l : ℚ)
    (hany : (budgets.any fun b => b.category == c) = false) :
    upsert_budget true budgets c l
      = (true, budgets ++ [{ category := c, monthly_limit := l }]) := by
  simp [upsert_budget, hany]

theorem upsert_countP_le (budgets : List Budget) (c : String) (l : ℚ) (cat : String)
    (h : (budgets.countP fun b => b.category == cat) ≤ 1) :
    ((upsert_budget true budgets c l).2.countP fun b => b.category == cat) ≤ 1 := by
  by_cases hany : (budgets.any fun b => b.category == c) = true
  · rw [upsert_budget_true_any budgets c l hany]
    show ((budgets.map fun b : Budget =>
        if b.category == c then { b with monthly_limit := l } else b).countP
      fun b => b.category == cat) ≤ 1
    rw [countP_category_map_update]
    exact h
  · have hf : (budgets.any fun b => b.category == c) = false := by
      simpa using hany
    rw [upsert_budget_true_none budgets c l hf]
    show ((budgets ++ [({ category := c, monthly_limit := l } : Budget)]).countP
      fun b => b.category == cat) ≤ 1
    rw [List.countP_append]
    by_cases hcc : (c == cat) = true
    · have h0 : (budgets.countP fun b => b.category == cat) = 0 := by
        rw [List.countP_eq_zero]
        intro a ha
        have hne := List.any_eq_false.mp hf a ha
        rw [beq_iff_eq] at hcc
        subst hcc
        simpa using hne
      simp [h0, List.countP_cons, hcc]
    · have hcc2 : (({ category := c, monthly_limit := l } : Budget).category == cat)
          = false := by
        simpa using hcc
      simpa [List.countP_cons, hcc2] using h

theorem upsert_countP_self (budgets : List Budget) (c : String) (l : ℚ)
    (h : (budgets.countP fun b => b.category == c) ≤ 1) :
    ((upsert_budget true budgets c l).2.countP fun b => b.category == c) = 1 := by
  by_cases hany : (budgets.any fun b => b.category == c) = true
  · have hpos : 0 < budgets.countP fun b => b.category == c := by
      obtain ⟨a, ha, hac⟩ := List.any_eq_true.mp hany
      exact List.countP_pos_iff.mpr ⟨a, ha, hac⟩
    rw [upsert_budget_true_any budgets c l hany]
    show ((budgets.map fun b : Budget =>
        if b.category == c then { b with monthly_limit := l } else b).countP
      fun b => b.category == c) = 1
    rw [countP_category_map_update]
    omega
  · have hf : (budgets.any fun b => b.category == c) = false := by
      simpa using hany
    have h0 : (budgets.countP fun b => b.category == c) = 0 := by
      rw [List.countP_eq_zero]
      intro a ha
      exact List.any_eq_false.mp hf a ha
    rw [upsert_budget_true_none budgets c l hf]
    show ((budgets ++ [({ category := c, monthly_limit := l } : Budget)]).countP
      fun b => b.category == c) = 1
    rw [List.countP_append, h0]
    simp [List.countP_cons]

theorem upsert_limit_self (budgets : List Budget) (c : String) (l : ℚ) :
    ∀ b ∈ (upsert_budget true budgets c l).2, b.category = c → b.monthly_limit = l := by
  intro b hb hcat
  by_cases hany : (budgets.any fun x => x.category == c) = true
  · rw [upsert_budget_true_any budgets c l hany] at hb
    replace hb : b ∈ budgets.map fun x : Budget =>
        if x.category == c then { x with monthly_limit := l } else x := hb
    obtain ⟨a, _, rfl⟩ := List.mem_map.mp hb
    by_cases hac : (a.category == c) = true
    · simp [hac]
    · rw [if_neg hac] at hcat ⊢
      exact absurd (beq_iff_eq.mpr hcat) hac
  · have hf : (budgets.any fun x => x.category == c) = false := by
      simpa using hany
    rw [upsert_budget_true_none budgets c l hf] at hb
    replace hb : b ∈ budgets ++ [{ category := c, monthly_limit := l }] := hb
    rcases List.mem_append.mp hb with hmem | hmem
    · have hne := List.any_eq_false.mp hf b hmem
      exact absurd (beq_iff_eq.mpr hcat) hne
    · simp only [List.mem_singleton] at hmem
      subst hmem
      rfl

/-! Claim theorems. -/

/-- C1: for every ledger state and every budgeted category, the `spent` value
returned by `get_budget_summary` equals the sum of the amounts of exactly
those transactions whose category matches the budget's category and whose
`transaction_date` falls in the current calendar month and year at evaluation
time; a budgeted category with no such transactions appears in the summary
with `spent = 0`. -/
theorem C1_budget_summary_spent_correct (today : Date) (budgets : List Budget)
    (store : List Transaction) (b : Budget) (hmem : b ∈ budgets) :
    ∃ row ∈ get_budget_summary true today budgets store,
      row.category = b.category ∧ row.monthly_limit = b.monthly_limit ∧
      row.spent = (store.map fun t =>
          if t.category = b.category ∧ inCurrentMonth today t.transaction_date = true
          then t.amount else 0).sum ∧
      ((∀ t ∈ store,
          ¬(t.category = b.category ∧ inCurrentMonth today t.transaction_date = true)) →
        row.spent = 0) := by
  refine ⟨{ category := b.category, monthly_limit := b.monthly_limit,
            spent := spentFor today store b.category }, ?_, rfl, rfl, ?_, ?_⟩
  · show _ ∈ (sortByCategory budgets).map fun x =>
      ({ category := x.category, monthly_limit := x.monthly_limit,
         spent := spentFor today store x.category } : SummaryRow)
    exact List.mem_map_of_mem _ ((mem_sortByCategory b budgets).mpr hmem)
  · exact spentFor_eq_sum_ite today store b.category
  · intro hnone
    show spentFor today store b.category = 0
    rw [spentFor_eq_sum_ite]
    apply List.sum_eq_zero
    intro x hx
    obtain ⟨t, ht, rfl⟩ := List.mem_map.mp hx
    simp [hnone t ht]

/-- Witness for C1: a Food budget with a single matching current-month
transaction of amount 12. -/
theorem C1_witness :
    foodBudget ∈ [foodBudget] ∧
    ∃ row ∈ get_budget_summary true today0 [foodBudget] [tx0],
      row.category = foodBudget.category ∧
      row.monthly_limit = foodBudget.monthly_limit ∧
      row.spent = ([tx0].map fun t =>
          if t.category = foodBudget.category ∧
              inCurrentMonth today0 t.transaction_date = true
          then t.amount else 0).sum ∧
      ((∀ t ∈ [tx0],
          ¬(t.category = foodBudget.category ∧
            inCurrentMonth today0 t.transaction_date = true)) →
        row.spent = 0) :=
  ⟨List.mem_cons_self _ _,
   C1_budget_summary_spent_correct today0 [foodBudget] [tx0] foodBudget
     (List.mem_cons_self _ _)⟩

/-- C2: for every budget status with `monthly_limit > 0`, the rules are
evaluated in order with first match winning — `percentage > 100` yields
over-budget, else `percentage > 80` yields warning, else on-track; exactly 80
is on-track and exactly 100 is warning. -/
theorem C2_classification_order (spent limit : ℚ) (h : 0 < limit) :
    (budget_status spent limit = Status.over_budget ↔ 100 < spent / limit * 100)
  ∧ (budget_status spent limit = Status.warning ↔
      (80 < spent / limit * 100 ∧ spent / limit * 100 ≤ 100))
  ∧ (budget_status spent limit = Status.on_track ↔ spent / limit * 100 ≤ 80)
  ∧ (spent / limit * 100 = 80 → budget_status spent limit = Status.on_track)
  ∧ (spent / limit * 100 = 100 → budget_status spent limit = Status.warning) := by
  have hp : percentage spent limit = spent / limit * 100 := if_pos h
  have hover : budget_status spent limit = Status.over_budget ↔
      100 < spent / limit * 100 := by
    unfold budget_status classify
    rw [hp]
    split_ifs with h1 h2 <;> simp [h1]
  have hwarn : budget_status spent limit = Status.warning ↔
      (80 < spent / limit * 100 ∧ spent / limit * 100 ≤ 100) := by
    unfold budget_status classify
    rw [hp]
    split_ifs with h1 h2
    · constructor
      · intro hc
        exact absurd hc (by simp)
      · intro hc
        exact absurd h1 (not_lt.mpr hc.2)
    · simp [h2, not_lt.mp h1]
    · simp [h2]
  have htrack : budget_status spent limit = Status.on_track ↔
      spent / limit * 100 ≤ 80 := by
    unfold budget_status classify
    rw [hp]
    split_ifs with h1 h2
    · constructor
      · intro hc
        exact absurd hc (by simp)
      · intro hc
        exact absurd h1 (not_lt.mpr (by linarith))
    · constructor
      · intro hc
        exact absurd hc (by simp)
      · intro hc
        exact absurd h2 (not_lt.mpr hc)
    · simp [not_lt.mp h2]
  refine ⟨hover, hwarn, htrack, ?_, ?_⟩
  · intro he
    exact htrack.mpr (by rw [he])
  · intro he
    refine hwarn.mpr ?_
    rw [he]
    norm_num

/-- Witness for C2: limit 5 — spent 4 is exactly 80 % and classifies on-track,
spent 5 is exactly 100 % and classifies warning. -/
theorem C2_witness :
    (0:ℚ) < 5 ∧ budget_status 4 5 = Status.on_track
  ∧ budget_status 5 5 = Status.warning :=
  ⟨by norm_num,
   (C2_classification_order 4 5 (by norm_num)).2.2.2.1 (by norm_num),
   (C2_classification_order 5 5 (by norm_num)).2.2.2.2 (by norm_num)⟩

/-- C4: a `monthly_limit` of 0 never divides: `percentage` is defined to be 0
and the status is on-track, regardless of `spent`. -/
theorem C4_zero_limit_safe (spent : ℚ) :
    percentage spent 0 = 0 ∧ budget_status spent 0 = Status.on_track := by
  have hp : percentage spent 0 = 0 := if_neg (by norm_num)
  refine ⟨hp, ?_⟩
  unfold budget_status classify
  rw [hp]
  norm_num

/-- C10: a strictly negative `monthly_limit` is storable (`upsert_budget`
performs no range check), and for any `spent ≥ 0` the evaluator computes
`percentage = 0` (the division guard requires `limit > 0`, not `limit ≠ 0`)
and classifies the category on-track even though `spent` exceeds the limit. -/
theorem C10_negative_limit_on_track (c : String) (l spent : ℚ) (h : l < 0)
    (hs : 0 ≤ spent) :
    upsert_budget true [] c l = (true, [{ category := c, monthly_limit := l }])
  ∧ percentage spent l = 0
  ∧ budget_status spent l = Status.on_track
  ∧ l < spent := by
  have h0 : ¬ (0:ℚ) < l := not_lt.mpr h.le
  have hp : percentage spent l = 0 := if_neg h0
  refine ⟨rfl, hp, ?_, lt_of_lt_of_le h hs⟩
  unfold budget_status classify
  rw [hp]
  norm_num

/-- Witness for C10: limit −50, spent 10. -/
theorem C10_witness :
    (-50:ℚ) < 0 ∧ (0:ℚ) ≤ 10
  ∧ (upsert_budget true [] "Food" (-50)
      = (true, [{ category := "Food", monthly_limit := -50 }])
     ∧ percentage 10 (-50) = 0
     ∧ budget_status 10 (-50) = Status.on_track
     ∧ (-50:ℚ) < 10) :=
  ⟨by norm_num, by norm_num,
   C10_negative_limit_on_track "Food" (-50) 10 (by norm_num) (by norm_num)⟩

/-- C3 (evaluation at the failing input): the instant-feedback alert of
`show_manual_entry` re-reads the budget summary after the insert has committed
and then adds the inserted `amount` again, double-counting it. With a Food
budget of 100, an empty ledger and a manual entry of 60 dated in the current
month, the alert path reports "budget exceeded" (classification over-budget,
computed from 60 + 60 = 120 > 100) while `get_budget_summary` evaluated after
the same insert reports `spent = 60`, which classifies on-track — the two
paths disagree at the same evaluation instant. -/
theorem C3_single_check_double_counts :
    (show_manual_entry_submit true today0 [foodBudget] db0 "Cafe" 60 "Food"
        today0 "").1
      = EntryOutcome.saved 1 (some Alert.exceeded)
  ∧ get_budget_summary true today0 [foodBudget]
      ((show_manual_entry_submit true today0 [foodBudget] db0 "Cafe" 60 "Food"
          today0 "").2.transactions)
      = [{ category := "Food", monthly_limit := 100, spent := 60 }]
  ∧ budget_status 60 100 = Status.on_track
  ∧ alertStatus (some Alert.exceeded) ≠ Status.on_track := by
  have hcond : ("Cafe" : String) ≠ "" ∧ (0:ℚ) < 60 := ⟨by decide, by norm_num⟩
  refine ⟨?_, ?_, ?_, by decide⟩
  · simp only [show_manual_entry_submit, if_pos hcond, insert_transaction,
      if_pos rfl, get_budget_summary, sortByCategory, insertByCategory, spentFor,
      inCurrentMonth, budget_alert, List.find?, List.filter, List.map,
      List.sum_cons, List.sum_nil]
    norm_num [foodBudget, db0, today0]
  · simp only [show_manual_entry_submit, if_pos hcond, insert_transaction,
      if_pos rfl, get_budget_summary, sortByCategory, insertByCategory, spentFor,
      inCurrentMonth, List.filter, List.map, List.sum_cons, List.sum_nil]
    norm_num [foodBudget, db0, today0]
  · unfold budget_status percentage classify
    norm_num

/-- C5 (counterexample): `insert_transaction` called with an empty vendor and
amount −5 on a reachable empty store succeeds (returns id 1) and records the
row — it does not fail, contradicting the claimed store-side validation. -/
theorem C5_counterexample :
    (insert_transaction true db0 "" (-5) "Office Supplies" today0 ""
        "manual_entry")
      = (some 1, { transactions := [badTx], nextId := 2 })
  ∧ badTx.amount ≤ 0 ∧ badTx.vendor = "" :=
  ⟨rfl, by norm_num [badTx], rfl⟩

/-- C5 (amended): the Ledger Store performs no validation at all — with a
reachable store, `insert_transaction` records the row and returns the
generated id even when `amount ≤ 0` or the vendor is empty; the positivity
check lives only in the Ingestion Façade. -/
theorem C5_store_accepts_invalid (db : LedgerState) (vendor : String)
    (amount : ℚ) (category : String) (tdate : Date) (descr src : String)
    (h : amount ≤ 0 ∨ vendor = "") :
    (insert_transaction true db vendor amount category tdate descr src).1
      = some db.nextId
  ∧ (insert_transaction true db vendor amount category tdate descr src).2.transactions
      = db.transactions ++
        [{ id := db.nextId, vendor := vendor, amount := amount,
           category := category, transaction_date := tdate,
           description := descr, source_type := src }] :=
  ⟨rfl, rfl⟩

/-- Witness for the amended C5: the empty-vendor, negative-amount insert. -/
theorem C5_witness :
    ((-5:ℚ) ≤ 0 ∨ ("" : String) = "")
  ∧ ((insert_transaction true db0 "" (-5) "Office Supplies" today0 ""
        "manual_entry").1 = some db0.nextId
     ∧ (insert_transaction true db0 "" (-5) "Office Supplies" today0 ""
          "manual_entry").2.transactions
        = db0.transactions ++
          [{ id := db0.nextId, vendor := "", amount := -5,
             category := "Office Supplies", transaction_date := today0,
             description := "", source_type := "manual_entry" }]) :=
  ⟨Or.inl (by norm_num),
   C5_store_accepts_invalid db0 "" (-5) "Office Supplies" today0 "" "manual_entry"
     (Or.inl (by norm_num))⟩

/-- C6 (counterexample): a vendor consisting of a single space (empty after
trimming) with a category outside `CATEGORIES` passes the manual-entry
validation (`if vendor and amount > 0` tests Python truthiness, not trimmed
emptiness, and never checks the category), so the insert is attempted and the
row is recorded — contradicting the claimed ValidationError with no store
mutation. -/
theorem C6_counterexample :
    (" " : String).data.all Char.isWhitespace = true
  ∧ "NotARealCategory" ∉ CATEGORIES
  ∧ (show_manual_entry_submit true today0 [] db0 " " 10 "NotARealCategory"
        today0 "").1
      = EntryOutcome.saved 1 none
  ∧ (show_manual_entry_submit true today0 [] db0 " " 10 "NotARealCategory"
        today0 "").2.transactions
      = [wsTx] := by
  have hcond : (" " : String) ≠ "" ∧ (0:ℚ) < 10 := ⟨by decide, by norm_num⟩
  refine ⟨by decide, by decide, ?_, ?_⟩
  · simp only [show_manual_entry_submit, if_pos hcond, insert_transaction,
      if_pos rfl, get_budget_summary, sortByCategory, budget_alert, List.find?,
      List.map]
    rfl
  · simp only [show_manual_entry_submit, if_pos hcond, insert_transaction,
      if_pos rfl]
    rfl

/-- C6 (amended): the manual-entry path rejects exactly the inputs with an
untrimmed-empty vendor or a non-positive amount; in that case it reports an
input error, attempts no insert, and leaves the store unchanged. (Whitespace
vendors and unrecognized categories pass, per the counterexample.) -/
theorem C6_rejects_empty_vendor (conn_ok : Bool) (today : Date)
    (budgets : List Budget) (db : LedgerState) (vendor : String) (amount : ℚ)
    (category : String) (tdate : Date) (descr : String)
    (h : vendor = "" ∨ amount ≤ 0) :
    show_manual_entry_submit conn_ok today budgets db vendor amount category
        tdate descr
      = (EntryOutcome.inputError, db) := by
  have hneg : ¬(vendor ≠ "" ∧ 0 < amount) := by
    rcases h with h | h
    · intro hc
      exact hc.1 h
    · intro hc
      exact absurd hc.2 (not_lt.mpr h)
  unfold show_manual_entry_submit
  rw [if_neg hneg]

/-- Witness for the amended C6: an empty vendor with a positive amount is
rejected without touching the store. -/
theorem C6_witness :
    (("" : String) = "" ∨ (10:ℚ) ≤ 0)
  ∧ show_manual_entry_submit true today0 [] db0 "" 10 "Office Supplies" today0 ""
      = (EntryOutcome.inputError, db0) :=
  ⟨Or.inl rfl,
   C6_rejects_empty_vendor true today0 [] db0 "" 10 "Office Supplies" today0 ""
     (Or.inl rfl)⟩

/-- C7: assuming at most one budget row per category (the state the
`UNIQUE(user_id, category)` constraint guarantees), `upsert_budget` preserves
that invariant; upserting category `c` to `x` and then to `y` leaves exactly
one row for `c` and its limit is `y` (a full replace, not a sum); and a failed
upsert changes nothing. -/
theorem C7_upsert_unique_full_replace (budgets : List Budget) (c : String)
    (x y : ℚ)
    (huniq : ∀ cat : String, (budgets.countP fun b => b.category == cat) ≤ 1) :
    (∀ cat : String,
      (((upsert_budget true budgets c x).2).countP fun b => b.category == cat) ≤ 1)
  ∧ (((upsert_budget true (upsert_budget true budgets c x).2 c y).2).countP
      fun b => b.category == c) = 1
  ∧ (∀ b ∈ (upsert_budget true (upsert_budget true budgets c x).2 c y).2,
      b.category = c → b.monthly_limit = y)
  ∧ upsert_budget false budgets c y = (false, budgets) := by
  have ha : ∀ cat : String,
      (((upsert_budget true budgets c x).2).countP fun b => b.category == cat) ≤ 1 :=
    fun cat => upsert_countP_le budgets c x cat (huniq cat)
  exact ⟨ha, upsert_countP_self _ c y (ha c), upsert_limit_self _ c y, rfl⟩

/-- Witness for C7: starting from an empty budget table, upsert Food to 100
and then to 150. -/
theorem C7_witness :
    (∀ cat : String, (([] : List Budget).countP fun b => b.category == cat) ≤ 1)
  ∧ ((∀ cat : String,
        (((upsert_budget true [] "Food" 100).2).countP
          fun b => b.category == cat) ≤ 1)
     ∧ (((upsert_budget true (upsert_budget true [] "Food" 100).2 "Food" 150).2).countP
          fun b => b.category == "Food") = 1
     ∧ (∀ b ∈ (upsert_budget true (upsert_budget true [] "Food" 100).2 "Food" 150).2,
          b.category = "Food" → b.monthly_limit = 150)
     ∧ upsert_budget false [] "Food" 150 = (false, [])) :=
  ⟨fun _ => by simp,
   C7_upsert_unique_full_replace [] "Food" 100 150 (fun _ => by simp)⟩

/-- C8 (counterexample): `upsert_budget` with `monthly_limit = −50` succeeds
and creates the row, contradicting the claimed ValidationError. -/
theorem C8_counterexample :
    upsert_budget true [] "Food" (-50)
      = (true, [{ category := "Food", monthly_limit := -50 }])
  ∧ (-50 : ℚ) < 0 :=
  ⟨rfl, by norm_num⟩

/-- C8 (amended): `upsert_budget` performs no range check — a negative
`monthly_limit` is accepted, the operation reports success, and the stored row
for the category carries the negative limit. -/
theorem C8_negative_limit_stored (budgets : List Budget) (c : String) (l : ℚ)
    (h : l < 0) :
    (upsert_budget true budgets c l).1 = true
  ∧ ∃ b ∈ (upsert_budget true budgets c l).2, b.category = c ∧ b.monthly_limit = l := by
  by_cases hany : (budgets.any fun b => b.category == c) = true
  · rw [upsert_budget_true_any budgets c l hany]
    obtain ⟨a, ham, hac⟩ := List.any_eq_true.mp hany
    refine ⟨rfl, { a with monthly_limit := l }, ?_, by simpa using beq_iff_eq.mp hac, rfl⟩
    show _ ∈ budgets.map fun b : Budget =>
      if b.category == c then { b with monthly_limit := l } else b
    exact List.mem_map.mpr ⟨a, ham, by rw [if_pos hac]⟩
  · have hf : (budgets.any fun b => b.category == c) = false := by
      simpa using hany
    rw [upsert_budget_true_none budgets c l hf]
    refine ⟨rfl, { category := c, monthly_limit := l }, ?_, rfl, rfl⟩
    show _ ∈ budgets ++ [({ category := c, monthly_limit := l } : Budget)]
    exact List.mem_append_right _ (List.mem_singleton.mpr rfl)

/-- Witness for the amended C8: upserting Food to −50 on an empty table. -/
theorem C8_witness :
    (-50:ℚ) < 0
  ∧ ((upsert_budget true [] "Food" (-50)).1 = true
     ∧ ∃ b ∈ (upsert_budget true [] "Food" (-50)).2,
         b.category = "Food" ∧ b.monthly_limit = -50) :=
  ⟨by norm_num, C8_negative_limit_stored [] "Food" (-50) (by norm_num)⟩

/-- C9 (counterexample): an unreachable store holding data yields exactly the
same return value as a reachable empty store, for both read paths — the caller
cannot distinguish "store unreachable" from "no data" by the result, which is
the plain empty collection in both cases. -/
theorem C9_counterexample :
    get_transactions false [tx0] none = get_transactions true [] none
  ∧ get_budget_summary false today0 [foodBudget] [tx0]
      = get_budget_summary true today0 [] []
  ∧ get_transactions false [tx0] none = ([] : List Transaction)
  ∧ get_budget_summary false today0 [foodBudget] [tx0] = ([] : List SummaryRow) :=
  ⟨rfl, rfl, rfl, rfl⟩

/-- C9 (amended): on store failure both read paths return the plain empty
collection — the same value a reachable empty store produces — so failure is
not signalled to the caller through the returned value (it is only printed or
shown in the UI as a side effect). -/
theorem C9_failure_collapses_to_empty (store txs : List Transaction)
    (limit : Option ℕ) (today : Date) (budgets : List Budget) :
    get_transactions false store limit = []
  ∧ get_budget_summary false today budgets txs = []
  ∧ get_transactions false store limit = get_transactions true [] limit
  ∧ get_budget_summary false today budgets txs
      = get_budget_summary true today [] txs := by
  refine ⟨rfl, rfl, ?_, rfl⟩
  cases limit with
  | none => rfl
  | some n =>
    by_cases hn : n = 0 <;> simp [get_transactions, sortByDateDesc, hn]

end FinSight
